import Mathlib

/-!
Shallow embedding of the hostnic-cni pod-network driver (the Go file holding
`setupNS`, `createVethPairContext.run`, `addContainerRule`, `tearDownNS`) and
of the IPAM daemon bootstrap logic (`pkg/ipam/ipam.go`).

The kernel (netlink) interface is modelled as a trace of operations: every
call the driver makes is recorded as a `NetOp`, and a `NetEnv` scripts the
kernel's answer (success or a specific error) to the i-th call.  The driver
functions are direct translations of the Go sources over this model.
-/

namespace Hostnic

/-! ## Constants from the driver source -/

/-- Go constant `toContainerRulePriority = 512`. -/
def toContainerRulePriority : Int := 512

/-- Go constant `fromContainerRulePriority = 1536`. -/
def fromContainerRulePriority : Int := 1536

/-- Go constant `mainRouteTable = unix.RT_TABLE_MAIN` (= 254). -/
def mainRouteTable : Int := 254

/-- Go constant `ethernetMTU = 9001`. -/
def ethernetMTU : Nat := 9001

/-- netlink `SCOPE_LINK` (= 253). -/
def scopeLink : Nat := 253

/-- netlink `NUD_PERMANENT` (= 0x80). -/
def nudPermanent : Nat := 128

/-! ## Small embedding of the Go `net` standard-library pieces the driver uses -/

/-- An IPv4 network: address (as a natural below `2^32`) plus prefix length,
the shape of Go's `*net.IPNet` restricted to IPv4 (IPv6 is out of scope). -/
structure IPNet where
  ip : Nat
  maskBits : Nat
deriving DecidableEq, Repr

/-- Go `net.IPv4(a, b, c, d)` as a natural number. -/
def mkIPv4 (a b c d : Nat) : Nat := ((a * 256 + b) * 256 + c) * 256 + d

/-- Embedding of Go `strings.Split` for a one-character separator
(structural recursion so that it evaluates in the kernel). -/
def goSplitAux (sep : Char) : List Char → List Char → List String
  | [], acc => [String.mk acc.reverse]
  | c :: cs, acc =>
    if c = sep then String.mk acc.reverse :: goSplitAux sep cs []
    else goSplitAux sep cs (c :: acc)

/-- Go `strings.Split s (String.singleton sep)`. -/
def goSplit (sep : Char) (s : String) : List String := goSplitAux sep s.data []

/-- One decimal digit. -/
def decDigit (c : Char) : Option Nat :=
  if '0' ≤ c ∧ c ≤ '9' then some (c.toNat - 48) else none

/-- Decimal parse of a non-empty digit string. -/
def parseDecAux : List Char → Nat → Option Nat
  | [], acc => some acc
  | c :: cs, acc =>
    match decDigit c with
    | some d => parseDecAux cs (acc * 10 + d)
    | none => none

/-- Decimal parse, `none` on the empty string or a non-digit. -/
def parseDec (s : String) : Option Nat :=
  if s.data.isEmpty then none else parseDecAux s.data 0

/-- Embedding of Go `net.ParseIP` restricted to dotted-quad IPv4. -/
def parseIPv4 (s : String) : Option Nat :=
  match goSplit '.' s with
  | [a, b, c, d] =>
    match parseDec a, parseDec b, parseDec c, parseDec d with
    | some x, some y, some z, some w =>
      if x ≤ 255 ∧ y ≤ 255 ∧ z ≤ 255 ∧ w ≤ 255 then some (mkIPv4 x y z w) else none
    | _, _, _, _ => none
  | _ => none

/-- Keep the top `bits` bits of a 32-bit address. -/
def maskIP (ip : Nat) (bits : Nat) : Nat := ip / 2 ^ (32 - bits) * 2 ^ (32 - bits)

/-- Embedding of Go `net.ParseCIDR` (IPv4): returns the masked network,
which is what `setupNS` assigns to the rule destination. -/
def parseCIDR (s : String) : Option IPNet :=
  match goSplit '/' s with
  | [ipStr, lenStr] =>
    match parseIPv4 ipStr, parseDec lenStr with
    | some ip, some n => if n ≤ 32 then some { ip := maskIP ip n, maskBits := n } else none
    | _, _ => none
  | _ => none

/-! ## The netlink object model -/

/-- The fields of `vishvananda/netlink.Rule` that the driver sets:
source, destination, table and priority.  `newRule` gives the library
defaults (`nil`, `nil`, table 0, priority -1). -/
structure Rule where
  src : Option IPNet
  dst : Option IPNet
  table : Int
  priority : Int
deriving DecidableEq, Repr

/-- Embedding of `netlink.NewRule()` defaults for the fields we track. -/
def newRule : Rule := { src := none, dst := none, table := 0, priority := -1 }

/-- The fields of `netlink.Route` the driver sets. -/
structure Route where
  linkIndex : Nat
  scope : Nat
  dst : Option IPNet
deriving DecidableEq, Repr

/-- The fields of `netlink.Neigh` the driver sets (hardware address kept
as an opaque number). -/
structure Neigh where
  linkIndex : Nat
  state : Nat
  ip : Nat
  hardwareAddr : Nat
deriving DecidableEq, Repr

/-- The veth pair request built in `createVethPairContext.run`. -/
structure VethSpec where
  name : String
  peerName : String
  mtu : Nat
  up : Bool
  txQLen : Int
deriving DecidableEq, Repr

/-- Kernel errors the driver distinguishes: `EEXIST` on rule add
(`networkutils.IsRuleExistsError`), `ENOENT` on rule del
(`networkutils.ContainsNoSuchRule`), and anything else. -/
inductive NetlinkErr
  | ruleExists
  | noSuchRule
  | other (code : Nat)
deriving DecidableEq, Repr

/-- Embedding of `networkutils.ContainsNoSuchRule` (true only for `ENOENT`). -/
def ContainsNoSuchRule : NetlinkErr → Bool
  | NetlinkErr.noSuchRule => true
  | _ => false

/-- Embedding of `networkutils.IsRuleExistsError`; a `nil` error is not an
"exists" error. -/
def IsRuleExistsError : Option NetlinkErr → Bool
  | some NetlinkErr.ruleExists => true
  | _ => false

/-- One netlink (or namespace) call made by the driver. -/
inductive NetOp
  | linkByName (name : String)
  | linkDel (name : String)
  | withNetNSPath (path : String)
  | linkAdd (v : VethSpec)
  | linkSetUp (name : String)
  | routeReplace (r : Route)
  | addDefaultRoute (gw : Nat) (linkIndex : Nat)
  | addrAdd (linkName : String) (a : IPNet)
  | neighAdd (n : Neigh)
  | linkSetNsFd (name : String)
  | ruleAdd (r : Rule)
  | ruleDel (r : Rule)
  | routeDel (r : Route)
  | deleteRuleListBySrc (src : IPNet)
deriving DecidableEq, Repr

/-- The scripted kernel: the answer to the i-th call (`none` = success),
plus the link attributes `LinkByName` would report. -/
structure NetEnv where
  opErr : Nat → NetOp → Option NetlinkErr
  linkIndex : String → Nat
  linkMac : String → Nat

/-- Execution state: how many calls happened and the trace so far. -/
structure St where
  idx : Nat
  trace : List NetOp
deriving Repr

/-- The empty initial state. -/
def st0 : St := { idx := 0, trace := [] }

/-- Result of a driver function: Go `error` (as `Except`) plus final state. -/
abbrev NetRes := Except NetlinkErr Unit × St

/-- Record one kernel call in the state. -/
def stepSt (op : NetOp) (s : St) : St := { idx := s.idx + 1, trace := s.trace ++ [op] }

/-- Perform a call whose failure aborts the function (the dominant Go
`if err != nil return err` pattern): the scripted answer to the call
decides whether the continuation runs. -/
def failStep (env : NetEnv) (op : NetOp) (k : St → NetRes) : St → NetRes := fun s =>
  match env.opErr s.idx op with
  | some e => (Except.error e, stepSt op s)
  | none => k (stepSt op s)

/-- Sequence two fallible computations (Go early-return on error). -/
def andThen (g : St → NetRes) (k : St → NetRes) : St → NetRes := fun s =>
  match g s with
  | (Except.error e, s1) => (Except.error e, s1)
  | (Except.ok _, s1) => k s1

/-! ## `createVethPairContext.run` -/

/-- The parameters of `createVethPairContext`. -/
structure CreateVethCtx where
  contVethName : String
  hostVethName : String
  addr : IPNet
deriving DecidableEq, Repr

/-- The dummy next hop `net.IPv4(169, 254, 1, 1)`. -/
def gwIP : Nat := mkIPv4 169 254 1 1

/-- `gwNet`: the /32 network around the dummy next hop. -/
def gwNet : IPNet := { ip := gwIP, maskBits := 32 }

/-- The `netlink.Veth` literal built in `run` (container name, peer = host
name, `MTU: ethernetMTU`, `Flags: net.FlagUp`, `TxQLen: -1`). -/
def vethSpec (c : CreateVethCtx) : VethSpec :=
  { name := c.contVethName, peerName := c.hostVethName,
    mtu := ethernetMTU, up := true, txQLen := -1 }

/-- The connected /32 route to the dummy next hop added inside the pod
namespace (`Scope: SCOPE_LINK`, `Dst: gwNet`, on the container veth). -/
def contGwRoute (env : NetEnv) (c : CreateVethCtx) : Route :=
  { linkIndex := env.linkIndex c.contVethName, scope := scopeLink, dst := some gwNet }

/-- The permanent ARP entry for the dummy gateway, resolving it to the MAC
address of the host end of the veth. -/
def gwNeigh (env : NetEnv) (c : CreateVethCtx) : Neigh :=
  { linkIndex := env.linkIndex c.contVethName, state := nudPermanent,
    ip := gwIP, hardwareAddr := env.linkMac c.hostVethName }

/-- Embedding of `createVethPairContext.run`: the closure executed inside
the pod's network namespace. -/
def runVeth (env : NetEnv) (c : CreateVethCtx) : St → NetRes :=
  failStep env (NetOp.linkAdd (vethSpec c))
    (failStep env (NetOp.linkByName c.hostVethName)
      (failStep env (NetOp.linkSetUp c.hostVethName)
        (failStep env (NetOp.linkByName c.contVethName)
          (failStep env (NetOp.linkSetUp c.contVethName)
            (failStep env (NetOp.routeReplace (contGwRoute env c))
              (failStep env (NetOp.addDefaultRoute gwIP (env.linkIndex c.contVethName))
                (failStep env (NetOp.addrAdd c.contVethName c.addr)
                  (failStep env (NetOp.neighAdd (gwNeigh env c))
                    (failStep env (NetOp.linkSetNsFd c.hostVethName)
                      (fun s => (Except.ok (), s)))))))))))

/-! ## `addContainerRule` and the per-CIDR rule loop -/

/-- The rule built by `addContainerRule`: destination = pod address for the
to-container direction, source = pod address otherwise. -/
def containerRuleOf (isToContainer : Bool) (addr : IPNet) (priority : Int) (table : Int) : Rule :=
  { newRule with
    dst := if isToContainer then some addr else none,
    src := if isToContainer then none else some addr,
    table := table,
    priority := priority }

/-- Second half of `addContainerRule`: the `RuleAdd`, any failure fatal. -/
def addContainerRuleAdd (env : NetEnv) (containerRule : Rule) : St → NetRes := fun s =>
  match env.opErr s.idx (NetOp.ruleAdd containerRule) with
  | some e => (Except.error e, stepSt (NetOp.ruleAdd containerRule) s)
  | none => (Except.ok (), stepSt (NetOp.ruleAdd containerRule) s)

/-- Embedding of `addContainerRule`: delete the intended rule (tolerating
"no such rule"), then add it (any error fatal). -/
def addContainerRule (env : NetEnv) (isToContainer : Bool) (addr : IPNet)
    (priority : Int) (table : Int) : St → NetRes := fun s =>
  match env.opErr s.idx (NetOp.ruleDel (containerRuleOf isToContainer addr priority table)) with
  | some e =>
    if ContainsNoSuchRule e then
      addContainerRuleAdd env (containerRuleOf isToContainer addr priority table)
        (stepSt (NetOp.ruleDel (containerRuleOf isToContainer addr priority table)) s)
    else (Except.error e, stepSt (NetOp.ruleDel (containerRuleOf isToContainer addr priority table)) s)
  | none =>
    addContainerRuleAdd env (containerRuleOf isToContainer addr priority table)
      (stepSt (NetOp.ruleDel (containerRuleOf isToContainer addr priority table)) s)

/-- The per-CIDR from-pod rule built inside the `setupNS` loop:
`Dst` from `net.ParseCIDR cidr` (the error is discarded, so an unparsable
entry leaves `Dst = nil`), `Src` = pod address, the NIC table, priority
1536. -/
def podRuleOf (addr : IPNet) (table : Int) (cidr : String) : Rule :=
  { newRule with
    dst := parseCIDR cidr,
    src := some addr,
    table := table,
    priority := fromContainerRulePriority }

/-- Embedding of the `for _, cidr := range vpcCIDRs` loop of `setupNS`:
plain `RuleAdd` per entry, "rule already exists" tolerated, any other
error fatal. -/
def addPodRules (env : NetEnv) (addr : IPNet) (table : Int) : List String → St → NetRes
  | [], s => (Except.ok (), s)
  | cidr :: rest, s =>
    if IsRuleExistsError (env.opErr s.idx (NetOp.ruleAdd (podRuleOf addr table cidr))) then
      addPodRules env addr table rest (stepSt (NetOp.ruleAdd (podRuleOf addr table cidr)) s)
    else
      match env.opErr s.idx (NetOp.ruleAdd (podRuleOf addr table cidr)) with
      | some e1 => (Except.error e1, stepSt (NetOp.ruleAdd (podRuleOf addr table cidr)) s)
      | none => addPodRules env addr table rest (stepSt (NetOp.ruleAdd (podRuleOf addr table cidr)) s)

/-! ## `setupNS` -/

/-- The host-side /32 route to the pod address via the host veth. -/
def hostRoute (env : NetEnv) (hostVethName : String) (addr : IPNet) : Route :=
  { linkIndex := env.linkIndex hostVethName, scope := scopeLink,
    dst := some { ip := addr.ip, maskBits := 32 } }

/-- The CIDR list the non-SNAT branch iterates over: the VPC CIDRs with
the tunnel net appended when it is non-empty. -/
def effectiveCIDRs (vpcCIDRs : List String) (tunnelNet : String) : List String :=
  if tunnelNet ≠ "" then vpcCIDRs ++ [tunnelNet] else vpcCIDRs

/-- The from-pod phase of `setupNS` (`if table > 0 { ... }`). -/
def setupNSFromPod (env : NetEnv) (addr : IPNet) (table : Int) (vpcCIDRs : List String)
    (useExternalSNAT : Bool) (tunnelNet : String) : St → NetRes := fun s =>
  if table > 0 then
    if useExternalSNAT then
      addContainerRule env false addr fromContainerRulePriority table s
    else
      addPodRules env addr table (effectiveCIDRs vpcCIDRs tunnelNet) s
  else (Except.ok (), s)

/-- Host-side phase of `setupNS` after the namespace work: find the host
veth, bring it up, install the /32 host route, install the priority-512
to-container rule, then the from-pod rules. -/
def setupNSHost (env : NetEnv) (hostVethName : String) (addr : IPNet) (table : Int)
    (vpcCIDRs : List String) (useExternalSNAT : Bool) (tunnelNet : String) : St → NetRes :=
  failStep env (NetOp.linkByName hostVethName)
    (failStep env (NetOp.linkSetUp hostVethName)
      (failStep env (NetOp.routeReplace (hostRoute env hostVethName addr))
        (andThen (addContainerRule env true addr toContainerRulePriority mainRouteTable)
          (setupNSFromPod env addr table vpcCIDRs useExternalSNAT tunnelNet))))

/-- Namespace phase of `setupNS`: enter the pod namespace
(`ns.WithNetNSPath`) and run `createVethPairContext.run`, then continue on
the host side. -/
def setupNSMain (env : NetEnv) (hostVethName contVethName netnsPath : String)
    (addr : IPNet) (table : Int) (vpcCIDRs : List String)
    (useExternalSNAT : Bool) (tunnelNet : String) : St → NetRes :=
  failStep env (NetOp.withNetNSPath netnsPath)
    (andThen (runVeth env { contVethName := contVethName, hostVethName := hostVethName, addr := addr })
      (setupNSHost env hostVethName addr table vpcCIDRs useExternalSNAT tunnelNet))

/-- Embedding of `setupNS`: first the stale host-veth cleanup (`LinkByName`
succeeding means the link exists and it is deleted; a lookup error means
no such link and nothing is deleted), then the rest of the wiring. -/
def setupNS (env : NetEnv) (hostVethName contVethName netnsPath : String)
    (addr : IPNet) (table : Int) (vpcCIDRs : List String)
    (useExternalSNAT : Bool) (tunnelNet : String) : St → NetRes := fun s =>
  match env.opErr s.idx (NetOp.linkByName hostVethName) with
  | none =>
    let s1 := stepSt (NetOp.linkByName hostVethName) s
    match env.opErr s1.idx (NetOp.linkDel hostVethName) with
    | some e => (Except.error e, stepSt (NetOp.linkDel hostVethName) s1)
    | none =>
      setupNSMain env hostVethName contVethName netnsPath addr table vpcCIDRs
        useExternalSNAT tunnelNet (stepSt (NetOp.linkDel hostVethName) s1)
  | some _ =>
    setupNSMain env hostVethName contVethName netnsPath addr table vpcCIDRs
      useExternalSNAT tunnelNet (stepSt (NetOp.linkByName hostVethName) s)

/-! ## `tearDownNS` -/

/-- The to-container rule deleted by `tearDownNS` (`Dst` = pod address,
priority 512; the table field keeps the `NewRule` default). -/
def teardownToContainerRule (addr : IPNet) : Rule :=
  { newRule with dst := some addr, priority := toContainerRulePriority }

/-- Modelled from the spec: `networkutils.DeleteRuleListBySrc` (its code is
not part of this repository subset) deletes every policy rule whose source
matches, "tolerating missing objects" — so an absent rule ("no such rule")
is absorbed and only a different kernel error is reported. -/
def deleteRuleListBySrcStep (env : NetEnv) (src : IPNet) (s : St) : Option NetlinkErr × St :=
  match env.opErr s.idx (NetOp.deleteRuleListBySrc src) with
  | some NetlinkErr.noSuchRule => (none, stepSt (NetOp.deleteRuleListBySrc src) s)
  | e => (e, stepSt (NetOp.deleteRuleListBySrc src) s)

/-- The host-side /32 route object deleted by `tearDownNS` (`LinkIndex`
keeps the Go zero value). -/
def teardownHostRouteOf (addr : IPNet) : Route :=
  { linkIndex := 0, scope := scopeLink, dst := some { ip := addr.ip, maskBits := 32 } }

/-- Final phase of `tearDownNS`: delete the host-side /32 route; a failure
is only logged. -/
def tearDownHostRoute (_env : NetEnv) (addr : IPNet) : St → NetRes := fun s =>
  (Except.ok (), stepSt (NetOp.routeDel (teardownHostRouteOf addr)) s)

/-- From-pod phase of `tearDownNS`: only for a non-main table; a real
failure of the rule-list deletion is fatal. -/
def tearDownFromPod (env : NetEnv) (addr : IPNet) (table : Int) : St → NetRes := fun s =>
  if table > 0 then
    match deleteRuleListBySrcStep env addr s with
    | (some e, s1) => (Except.error e, s1)
    | (none, s1) => tearDownHostRoute env addr s1
  else tearDownHostRoute env addr s

/-- Embedding of `tearDownNS`: delete the priority-512 to-container rule
(any failure only logged), then the from-pod rules when `table > 0`, then
the host /32 route (failure only logged). -/
def tearDownNS (env : NetEnv) (addr : IPNet) (table : Int) : St → NetRes := fun s =>
  tearDownFromPod env addr table (stepSt (NetOp.ruleDel (teardownToContainerRule addr)) s)

/-! ## `pkg/ipam/ipam.go`: environment parsing -/

/-- Go constant `defaultClusterName = "kubernetes"`. -/
def defaultClusterName : String := "kubernetes"

/-- Go constant `defaultVethPrefix = "nic"`. -/
def defaultVethPrefix : String := "nic"

/-- Go constant `configFileName`. -/
def configFileName : String := "/host/etc/cni/net.d/10-ahostnic.conflist"

/-- The three environment variables `parseEnv` reads (`os.Getenv` returns
the empty string when a variable is unset, so `String` covers both). -/
structure EnvVars where
  extraTagsVar : String
  clusterNameVar : String
  vethPrefixVar : String
deriving DecidableEq, Repr

/-- The `IpamD` fields `parseEnv` writes. -/
structure IpamConf where
  extraTags : List String
  clusterName : String
  vethPrefix : String
deriving DecidableEq, Repr

/-- The Go zero values these fields have on a fresh `IpamD` (`NewIpamD`
does not set them). -/
def ipamInitialConf : IpamConf :=
  { extraTags := [], clusterName := "", vethPrefix := "" }

/-- Embedding of `IpamD.parseEnv`: tags split on commas only when the
variable is non-empty; cluster name and veth name prefix fall back to
their defaults when empty. -/
def parseEnv (e : EnvVars) (s : IpamConf) : IpamConf :=
  let s1 := if e.extraTagsVar ≠ "" then { s with extraTags := goSplit ',' e.extraTagsVar } else s
  let s2 := { s1 with clusterName := if e.clusterNameVar = "" then defaultClusterName else e.clusterNameVar }
  { s2 with vethPrefix := if e.vethPrefixVar = "" then defaultVethPrefix else e.vethPrefixVar }

/-! ## `WriteCNIConfig` and `Start` -/

/-- The text of the Go template in `WriteCNIConfig` before the
`VethPrefix` insertion point, with `CniVersion` already substituted by the
hard-coded `"0.3.1"`. -/
def cniTemplatePre : String :=
  "\x7b\n\t\"cniVersion\": \"0.3.1\",\n\t\"name\": \"hostnic-cni\",\n\t\"plugins\": [\n\t\t\x7b\n\t\t\"name\": \"hostnic\",\n\t\t\"type\": \"hostnic\",\n\t\t\"vethPrefix\": \""

/-- The text of the template after the `VethPrefix` insertion point. -/
def cniTemplatePost : String := "\"\n\t\t\x7d]\n\x7d"

/-- The exact file content `WriteCNIConfig` produces for a given veth
name prefix. -/
def renderCNIConfig (p : String) : String := cniTemplatePre ++ p ++ cniTemplatePost

/-- Observable effects of `ipam.Start`. -/
inductive StartEv
  | reconcileStarted
  | grpcStarted
  | wroteConfig (path : String) (content : String)
deriving DecidableEq, Repr

/-- Oracle for the external collaborators of start-up: whether the
Kubernetes controller starts, whether the cloud/bootstrap tail of `setup`
succeeds, whether the RPC listener opens, the datastore statistics
(`GetStats`, i.e. `(total, assigned)`) read on the i-th write attempt,
and whether the i-th file write succeeds. -/
structure StartEnv where
  vars : EnvVars
  k8sStartOk : Bool
  setupRestOk : Bool
  grpcListenOk : Bool
  stats : Nat → Nat × Nat
  writeOk : Nat → Bool

/-- Embedding of `IpamD.setup` at the granularity the start-up claims
need: `parseEnv` runs first; the long tail of cloud and kernel bootstrap
calls (`prepareCloudClient` through `prepareLocalPods`) lives in external
packages and is summarised by the `setupRestOk` oracle — any failure in it
aborts `setup` with an error (`none`). -/
def setupModel (env : StartEnv) : Option IpamConf :=
  let conf := parseEnv env.vars ipamInitialConf
  if env.setupRestOk then some conf else none

/-- Embedding of the `retry.Do(10, 5*time.Second, …)` loop at the end of
`ipam.Start`.  The retry helper itself is external; modelled from the
spec: "a small utility parameterized by (max attempts, backoff)" that
re-runs the body up to the attempt budget, stopping at the first success.
The body writes the CNI config only when the datastore has a free IP
(`total > assigned`); a body failure (no free IP, or a failed write) is
retried with fresh statistics.  Only a successful write emits a
`wroteConfig` event. -/
def writeLoop (env : StartEnv) (conf : IpamConf) : Nat → Nat → Bool × List StartEv
  | 0, _ => (false, [])
  | Nat.succ k, i =>
    if (env.stats i).1 > (env.stats i).2 then
      if env.writeOk i then
        (true, [StartEv.wroteConfig configFileName (renderCNIConfig (IpamConf.vethPrefix conf))])
      else writeLoop env conf k (i + 1)
    else writeLoop env conf k (i + 1)

/-- Embedding of `ipam.Start`: bootstrap (`StartIPAMD` = Kubernetes client
start + `setup`) with any failure returned at once, then the reconciler
and the RPC server are started, and only then does the CNI config write
loop run. -/
def startModel (env : StartEnv) : Bool × List StartEv :=
  if env.k8sStartOk then
    match setupModel env with
    | none => (false, [])
    | some conf =>
      if env.grpcListenOk then
        let r := writeLoop env conf 10 0
        (r.1, [StartEv.reconcileStarted, StartEv.grpcStarted] ++ r.2)
      else (false, [StartEv.reconcileStarted])
  else (false, [])

/-! ## `prepareLocalPods` -/

/-- The `k8sclient.K8SPodInfo` fields `prepareLocalPods` uses. -/
structure PodInfo where
  name : String
  namespaceName : String
  container : String
  ip : String
deriving DecidableEq, Repr

/-- Observable effects of `prepareLocalPods`: a datastore assignment
attempt for a pod, and an `UpdateRuleListBySrc` call (carrying the pod IP,
the CIDR list, the to-CIDRs flag and the table). -/
inductive PrepEv
  | assignAttempt (p : PodInfo)
  | ruleUpdate (ip : String) (cidrs : List String) (toCIDRs : Bool) (table : Int)
deriving DecidableEq, Repr

/-- Oracle for the externals of `prepareLocalPods`.  `assignOk` and
`updateOk` record whether the datastore assignment and the rule update
would succeed; the Go code only logs those failures, so the two fields
deliberately never influence the model's control flow — that independence
is part of what the error-handling claim states. -/
structure PrepEnv where
  ruleListOk : Bool
  assignOk : PodInfo → Bool
  vpcSubnetList : List String
  vpnNetOf : String → String
  nicIndexOf : String → Int
  updateOk : PodInfo → Bool
  useExtSNAT : Bool

/-- Per-pod body of the `prepareLocalPods` loop: skip IP-less pods, attempt
the datastore assignment (failure only logged), build the CIDR list (VPC
subnets plus the VPN net of the pod IP), resolve the device index (`-1`
skips the rule update), and call `UpdateRuleListBySrc` (failure only
logged). -/
def prepPod (env : PrepEnv) (p : PodInfo) : List PrepEv :=
  if p.ip = "" then []
  else
    let evs := [PrepEv.assignAttempt p]
    let cidrs := env.vpcSubnetList ++ [env.vpnNetOf p.ip]
    let table := env.nicIndexOf p.ip
    if table = -1 then evs
    else evs ++ [PrepEv.ruleUpdate p.ip cidrs (!env.useExtSNAT) table]

/-- Embedding of `prepareLocalPods`: when reading the kernel rule list
fails the function logs the error and returns `nil` at once (no events);
otherwise it walks the pod list.  Either way the returned error is `nil`
(`true` here). -/
def prepareLocalPods (env : PrepEnv) (pods : List PodInfo) : Bool × List PrepEv :=
  if env.ruleListOk then (true, (pods.map (prepPod env)).flatten)
  else (true, [])

/-! ## Trace predicates used by the theorems -/

/-- The ten calls `createVethPairContext.run` makes, in program order. -/
def VethOpsList (env : NetEnv) (c : CreateVethCtx) : List NetOp :=
  [NetOp.linkAdd (vethSpec c),
   NetOp.linkByName c.hostVethName,
   NetOp.linkSetUp c.hostVethName,
   NetOp.linkByName c.contVethName,
   NetOp.linkSetUp c.contVethName,
   NetOp.routeReplace (contGwRoute env c),
   NetOp.addDefaultRoute gwIP (env.linkIndex c.contVethName),
   NetOp.addrAdd c.contVethName c.addr,
   NetOp.neighAdd (gwNeigh env c),
   NetOp.linkSetNsFd c.hostVethName]

/-- The three host-side calls of `setupNS` before the rules. -/
def hostOpsList (env : NetEnv) (hostVethName : String) (addr : IPNet) : List NetOp :=
  [NetOp.linkByName hostVethName,
   NetOp.linkSetUp hostVethName,
   NetOp.routeReplace (hostRoute env hostVethName addr)]

/-- `f` only appends to the trace, and every appended call satisfies `P`
(whatever errors the scripted kernel returns). -/
def Extends (P : NetOp → Prop) (f : St → NetRes) : Prop :=
  ∀ s, ∃ t, ((f s).2).trace = s.trace ++ t ∧ ∀ op, op ∈ t → P op

/-- On a successful run, `f` appends exactly `out` to the trace. -/
def TraceExact (f : St → NetRes) (out : List NetOp) : Prop :=
  ∀ s, (f s).1 = Except.ok () → ((f s).2).trace = s.trace ++ out

/-- The from-pod rule installations in a trace: the arguments of the
`RuleAdd` calls made at priority 1536. -/
def fromPodAdds (t : List NetOp) : List Rule :=
  t.filterMap fun op =>
    match op with
    | NetOp.ruleAdd r => if r.priority = fromContainerRulePriority then some r else none
    | _ => none

/-- A scripted kernel whose only failures are "no such rule" — i.e. every
object a deletion might target may be absent, but nothing else goes
wrong. -/
def BenignErr (env : NetEnv) : Prop :=
  ∀ i op, env.opErr i op = none ∨ env.opErr i op = some NetlinkErr.noSuchRule

/-- The calls the from-pod phase makes on a successful run. -/
def fromPodOut (addr : IPNet) (table : Int) (vpcCIDRs : List String) (snat : Bool)
    (tunnelNet : String) : List NetOp :=
  if table > 0 then
    if snat then
      [NetOp.ruleDel (containerRuleOf false addr fromContainerRulePriority table),
       NetOp.ruleAdd (containerRuleOf false addr fromContainerRulePriority table)]
    else (effectiveCIDRs vpcCIDRs tunnelNet).map fun c => NetOp.ruleAdd (podRuleOf addr table c)
  else []

/-- The calls `setupNSMain` makes on a successful run, in program order. -/
def mainOut (env : NetEnv) (hostVethName contVethName netnsPath : String) (addr : IPNet)
    (table : Int) (vpcCIDRs : List String) (snat : Bool) (tunnelNet : String) : List NetOp :=
  NetOp.withNetNSPath netnsPath ::
    (VethOpsList env { contVethName := contVethName, hostVethName := hostVethName, addr := addr } ++
      (NetOp.linkByName hostVethName ::
        NetOp.linkSetUp hostVethName ::
        NetOp.routeReplace (hostRoute env hostVethName addr) ::
        ([NetOp.ruleDel (containerRuleOf true addr toContainerRulePriority mainRouteTable),
          NetOp.ruleAdd (containerRuleOf true addr toContainerRulePriority mainRouteTable)] ++
          fromPodOut addr table vpcCIDRs snat tunnelNet)))

/-- Characterisation of every call `setupNSMain` (the whole of `setupNS`
after the stale-veth cleanup) can make. -/
def MainOp (env : NetEnv) (hostVethName contVethName netnsPath : String) (addr : IPNet)
    (table : Int) (vpcCIDRs : List String) (snat : Bool) (tunnelNet : String)
    (op : NetOp) : Prop :=
  op = NetOp.withNetNSPath netnsPath ∨
  op ∈ VethOpsList env { contVethName := contVethName, hostVethName := hostVethName, addr := addr } ∨
  op ∈ hostOpsList env hostVethName addr ∨
  op = NetOp.ruleDel (containerRuleOf true addr toContainerRulePriority mainRouteTable) ∨
  op = NetOp.ruleAdd (containerRuleOf true addr toContainerRulePriority mainRouteTable) ∨
  (0 < table ∧ snat = true ∧
    (op = NetOp.ruleDel (containerRuleOf false addr fromContainerRulePriority table) ∨
     op = NetOp.ruleAdd (containerRuleOf false addr fromContainerRulePriority table))) ∨
  (0 < table ∧ snat = false ∧
    ∃ c ∈ effectiveCIDRs vpcCIDRs tunnelNet, op = NetOp.ruleAdd (podRuleOf addr table c))

/-! ## Concrete scripted kernels and sample inputs used by closed instances -/

/-- A kernel that answers every call with success. -/
def allOkEnv : NetEnv :=
  { opErr := fun _ _ => none, linkIndex := fun _ => 5, linkMac := fun _ => 7 }

/-- A kernel that answers "rule already exists" to every rule addition and
success to everything else. -/
def ruleExistsEnv : NetEnv :=
  { opErr := fun _ op =>
      match op with
      | NetOp.ruleAdd _ => some NetlinkErr.ruleExists
      | _ => none,
    linkIndex := fun _ => 5, linkMac := fun _ => 7 }

/-- A kernel on which every rule deletion finds nothing to delete. -/
def delMissingEnv : NetEnv :=
  { opErr := fun _ op =>
      match op with
      | NetOp.ruleDel _ => some NetlinkErr.noSuchRule
      | _ => none,
    linkIndex := fun _ => 5, linkMac := fun _ => 7 }

/-- A kernel that answers "no such rule" to every call. -/
def noSuchRuleEnv : NetEnv :=
  { opErr := fun _ _ => some NetlinkErr.noSuchRule,
    linkIndex := fun _ => 5, linkMac := fun _ => 7 }

/-- A kernel on which no link lookup ever succeeds. -/
def noLinkEnv : NetEnv :=
  { opErr := fun _ op =>
      match op with
      | NetOp.linkByName _ => some (NetlinkErr.other 2)
      | _ => none,
    linkIndex := fun _ => 5, linkMac := fun _ => 7 }

/-- A sample pod /32 address (10.0.1.7/32). -/
def sampleAddr : IPNet := { ip := mkIPv4 10 0 1 7, maskBits := 32 }

/-- Sample veth-pair parameters. -/
def sampleCtx : CreateVethCtx :=
  { contVethName := "eth0", hostVethName := "nicab", addr := sampleAddr }

/-- A start-up oracle on which everything succeeds and the pool has a free
IP from the first attempt. -/
def sampleStartEnv : StartEnv :=
  { vars := { extraTagsVar := "", clusterNameVar := "", vethPrefixVar := "" },
    k8sStartOk := true, setupRestOk := true, grpcListenOk := true,
    stats := fun _ => (1, 0), writeOk := fun _ => true }

/-- A sample recovered pod. -/
def samplePod : PodInfo :=
  { name := "p1", namespaceName := "default", container := "abc", ip := "10.0.1.7" }

/-- A bootstrap-recovery oracle on which everything succeeds. -/
def samplePrepEnv : PrepEnv :=
  { ruleListOk := true, assignOk := fun _ => true, vpcSubnetList := ["10.0.0.0/16"],
    vpnNetOf := fun _ => "10.255.0.0/16", nicIndexOf := fun _ => 3,
    updateOk := fun _ => true, useExtSNAT := false }

/-- The same oracle but the kernel rule list cannot be read. -/
def samplePrepEnvNoRules : PrepEnv := { samplePrepEnv with ruleListOk := false }

/-- The same oracle but no device index resolves. -/
def samplePrepEnvNoNic : PrepEnv := { samplePrepEnv with nicIndexOf := fun _ => -1 }

/-! ## Machinery: trace-extension lemmas (all scripted kernels) -/

theorem extends_mono {P Q : NetOp → Prop} {f : St → NetRes}
    (hPQ : ∀ op, P op → Q op) (hf : Extends P f) : Extends Q f := by
  intro s
  obtain ⟨t, ht, hp⟩ := hf s
  exact ⟨t, ht, fun op hop => hPQ op (hp op hop)⟩

theorem extends_pure {P : NetOp → Prop} (r : Except NetlinkErr Unit) :
    Extends P (fun s => (r, s)) := fun _ => ⟨[], by simp, by simp⟩

theorem extends_failStep {env : NetEnv} {P : NetOp → Prop} {op : NetOp} {k : St → NetRes}
    (hop : P op) (hk : Extends P k) : Extends P (failStep env op k) := by
  intro s
  unfold failStep
  cases h : env.opErr s.idx op with
  | some e =>
    refine ⟨[op], by simp [stepSt], ?_⟩
    intro o ho
    rcases List.mem_singleton.mp ho with rfl
    exact hop
  | none =>
    obtain ⟨t, ht, hp⟩ := hk (stepSt op s)
    refine ⟨op :: t, ?_, ?_⟩
    · rw [ht]; simp [stepSt]
    · intro o ho
      rcases List.mem_cons.mp ho with rfl | h2
      · exact hop
      · exact hp o h2

theorem extends_andThen {P : NetOp → Prop} {g k : St → NetRes}
    (hg : Extends P g) (hk : Extends P k) : Extends P (andThen g k) := by
  intro s
  obtain ⟨t1, ht1, hp1⟩ := hg s
  unfold andThen
  cases hgs : g s with
  | mk r s1 =>
    rw [hgs] at ht1
    cases r with
    | error e => exact ⟨t1, ht1, hp1⟩
    | ok u =>
      obtain ⟨t2, ht2, hp2⟩ := hk s1
      refine ⟨t1 ++ t2, ?_, ?_⟩
      · simp only at ht1
        rw [ht2, ht1, List.append_assoc]
      · intro op hop
        rcases List.mem_append.mp hop with h1 | h2
        · exact hp1 op h1
        · exact hp2 op h2

/-! ## Machinery: success-exactness lemmas -/

theorem traceExact_pure : TraceExact (fun s => (Except.ok (), s)) [] := by
  intro s _; simp

theorem traceExact_failStep {env : NetEnv} {op : NetOp} {k : St → NetRes} {out : List NetOp}
    (hk : TraceExact k out) : TraceExact (failStep env op k) (op :: out) := by
  intro s h
  unfold failStep at h ⊢
  cases hop : env.opErr s.idx op with
  | some e => rw [hop] at h; simp at h
  | none =>
    rw [hop] at h
    have h2 : (k (stepSt op s)).1 = Except.ok () := h
    show (k (stepSt op s)).2.trace = s.trace ++ op :: out
    rw [hk (stepSt op s) h2]
    simp [stepSt]

theorem traceExact_andThen {g k : St → NetRes} {o1 o2 : List NetOp}
    (hg : TraceExact g o1) (hk : TraceExact k o2) : TraceExact (andThen g k) (o1 ++ o2) := by
  intro s h
  unfold andThen at h ⊢
  cases hgs : g s with
  | mk r s1 =>
    rw [hgs] at h
    cases r with
    | error e => simp at h
    | ok u =>
      cases u
      have h2 : (k s1).1 = Except.ok () := h
      have hg1 : s1.trace = s.trace ++ o1 := by
        have h3 := hg s (by rw [hgs])
        rw [hgs] at h3
        exact h3
      show (k s1).2.trace = s.trace ++ (o1 ++ o2)
      rw [hk s1 h2, hg1, List.append_assoc]

/-! ## Per-function lemmas: `addContainerRule` -/

theorem traceExact_addContainerRuleAdd (env : NetEnv) (cr : Rule) :
    TraceExact (addContainerRuleAdd env cr) [NetOp.ruleAdd cr] := by
  intro s h
  unfold addContainerRuleAdd at h ⊢
  cases ha : env.opErr s.idx (NetOp.ruleAdd cr) with
  | some e => rw [ha] at h; simp at h
  | none => simp [stepSt]

theorem extends_addContainerRuleAdd (env : NetEnv) (cr : Rule) :
    Extends (fun op => op = NetOp.ruleAdd cr) (addContainerRuleAdd env cr) := by
  intro s
  unfold addContainerRuleAdd
  cases ha : env.opErr s.idx (NetOp.ruleAdd cr) with
  | some e => exact ⟨[NetOp.ruleAdd cr], by simp [stepSt], by simp⟩
  | none => exact ⟨[NetOp.ruleAdd cr], by simp [stepSt], by simp⟩

theorem traceExact_addContainerRule (env : NetEnv) (isTo : Bool) (addr : IPNet)
    (pri tab : Int) :
    TraceExact (addContainerRule env isTo addr pri tab)
      [NetOp.ruleDel (containerRuleOf isTo addr pri tab),
       NetOp.ruleAdd (containerRuleOf isTo addr pri tab)] := by
  intro s h
  unfold addContainerRule at h ⊢
  cases hd : env.opErr s.idx (NetOp.ruleDel (containerRuleOf isTo addr pri tab)) with
  | some e =>
    rw [hd] at h
    dsimp only at h ⊢
    cases he : ContainsNoSuchRule e with
    | true =>
      rw [he] at h
      simp only [if_true] at h
      have h2 := traceExact_addContainerRuleAdd env (containerRuleOf isTo addr pri tab)
        (stepSt (NetOp.ruleDel (containerRuleOf isTo addr pri tab)) s) h
      simp only [he, if_true]
      rw [h2]
      simp [stepSt]
    | false => rw [he] at h; simp at h
  | none =>
    rw [hd] at h
    dsimp only at h ⊢
    have h2 := traceExact_addContainerRuleAdd env (containerRuleOf isTo addr pri tab)
      (stepSt (NetOp.ruleDel (containerRuleOf isTo addr pri tab)) s) h
    rw [h2]
    simp [stepSt]

theorem extends_addContainerRule (env : NetEnv) (isTo : Bool) (addr : IPNet)
    (pri tab : Int) :
    Extends (fun op => op = NetOp.ruleDel (containerRuleOf isTo addr pri tab) ∨
                       op = NetOp.ruleAdd (containerRuleOf isTo addr pri tab))
      (addContainerRule env isTo addr pri tab) := by
  intro s
  unfold addContainerRule
  cases hd : env.opErr s.idx (NetOp.ruleDel (containerRuleOf isTo addr pri tab)) with
  | some e =>
    dsimp only
    cases he : ContainsNoSuchRule e with
    | true =>
      simp only [he, if_true]
      obtain ⟨t, ht, hp⟩ := extends_addContainerRuleAdd env (containerRuleOf isTo addr pri tab)
        (stepSt (NetOp.ruleDel (containerRuleOf isTo addr pri tab)) s)
      refine ⟨NetOp.ruleDel (containerRuleOf isTo addr pri tab) :: t, ?_, ?_⟩
      · rw [ht]; simp [stepSt]
      · intro o ho
        rcases List.mem_cons.mp ho with rfl | h2
        · exact Or.inl rfl
        · exact Or.inr (hp o h2)
    | false =>
      simp only [Bool.false_eq_true, if_false]
      exact ⟨[NetOp.ruleDel (containerRuleOf isTo addr pri tab)], by simp [stepSt], by simp⟩
  | none =>
    dsimp only
    obtain ⟨t, ht, hp⟩ := extends_addContainerRuleAdd env (containerRuleOf isTo addr pri tab)
      (stepSt (NetOp.ruleDel (containerRuleOf isTo addr pri tab)) s)
    refine ⟨NetOp.ruleDel (containerRuleOf isTo addr pri tab) :: t, ?_, ?_⟩
    · rw [ht]; simp [stepSt]
    · intro o ho
      rcases List.mem_cons.mp ho with rfl | h2
      · exact Or.inl rfl
      · exact Or.inr (hp o h2)

/-! ## Per-function lemmas: the per-CIDR loop -/

theorem traceExact_addPodRules (env : NetEnv) (addr : IPNet) (tab : Int) :
    ∀ cidrs : List String,
      TraceExact (addPodRules env addr tab cidrs)
        (cidrs.map fun c => NetOp.ruleAdd (podRuleOf addr tab c)) := by
  intro cidrs
  induction cidrs with
  | nil => intro s _; simp [addPodRules]
  | cons cidr rest ih =>
    intro s h
    unfold addPodRules at h ⊢
    cases ha : env.opErr s.idx (NetOp.ruleAdd (podRuleOf addr tab cidr)) with
    | none =>
      rw [ha] at h
      simp only [IsRuleExistsError, Bool.false_eq_true, if_false] at h ⊢
      have h2 := ih (stepSt (NetOp.ruleAdd (podRuleOf addr tab cidr)) s) h
      rw [h2]
      simp [stepSt]
    | some e =>
      rw [ha] at h
      cases e with
      | ruleExists =>
        simp only [IsRuleExistsError, if_true] at h ⊢
        have h2 := ih (stepSt (NetOp.ruleAdd (podRuleOf addr tab cidr)) s) h
        rw [h2]
        simp [stepSt]
      | noSuchRule =>
        simp only [IsRuleExistsError, Bool.false_eq_true, if_false] at h
        simp at h
      | other code =>
        simp only [IsRuleExistsError, Bool.false_eq_true, if_false] at h
        simp at h

theorem extends_addPodRules (env : NetEnv) (addr : IPNet) (tab : Int) :
    ∀ cidrs : List String,
      Extends (fun op => ∃ c, c ∈ cidrs ∧ op = NetOp.ruleAdd (podRuleOf addr tab c))
        (addPodRules env addr tab cidrs) := by
  intro cidrs
  induction cidrs with
  | nil => intro s; exact ⟨[], by simp [addPodRules], by simp⟩
  | cons cidr rest ih =>
    intro s
    unfold addPodRules
    cases ha : env.opErr s.idx (NetOp.ruleAdd (podRuleOf addr tab cidr)) with
    | none =>
      simp only [IsRuleExistsError, Bool.false_eq_true, if_false]
      obtain ⟨t, ht, hp⟩ := ih (stepSt (NetOp.ruleAdd (podRuleOf addr tab cidr)) s)
      refine ⟨NetOp.ruleAdd (podRuleOf addr tab cidr) :: t, ?_, ?_⟩
      · rw [ht]; simp [stepSt]
      · intro o ho
        rcases List.mem_cons.mp ho with rfl | h2
        · exact ⟨cidr, List.mem_cons_self cidr rest, rfl⟩
        · obtain ⟨c2, hc2, rfl⟩ := hp o h2
          exact ⟨c2, List.mem_cons_of_mem cidr hc2, rfl⟩
    | some e =>
      cases e with
      | ruleExists =>
        simp only [IsRuleExistsError, if_true]
        obtain ⟨t, ht, hp⟩ := ih (stepSt (NetOp.ruleAdd (podRuleOf addr tab cidr)) s)
        refine ⟨NetOp.ruleAdd (podRuleOf addr tab cidr) :: t, ?_, ?_⟩
        · rw [ht]; simp [stepSt]
        · intro o ho
          rcases List.mem_cons.mp ho with rfl | h2
          · exact ⟨cidr, List.mem_cons_self cidr rest, rfl⟩
          · obtain ⟨c2, hc2, rfl⟩ := hp o h2
            exact ⟨c2, List.mem_cons_of_mem cidr hc2, rfl⟩
      | noSuchRule =>
        simp only [IsRuleExistsError, Bool.false_eq_true, if_false]
        refine ⟨[NetOp.ruleAdd (podRuleOf addr tab cidr)], by simp [stepSt], ?_⟩
        intro o ho
        rcases List.mem_singleton.mp ho with rfl
        exact ⟨cidr, List.mem_cons_self cidr rest, rfl⟩
      | other code =>
        simp only [IsRuleExistsError, Bool.false_eq_true, if_false]
        refine ⟨[NetOp.ruleAdd (podRuleOf addr tab cidr)], by simp [stepSt], ?_⟩
        intro o ho
        rcases List.mem_singleton.mp ho with rfl
        exact ⟨cidr, List.mem_cons_self cidr rest, rfl⟩

/-! ## Per-function lemmas: `createVethPairContext.run` -/

theorem traceExact_runVeth (env : NetEnv) (c : CreateVethCtx) :
    TraceExact (runVeth env c) (VethOpsList env c) := by
  unfold runVeth VethOpsList
  exact traceExact_failStep (traceExact_failStep (traceExact_failStep (traceExact_failStep
    (traceExact_failStep (traceExact_failStep (traceExact_failStep (traceExact_failStep
      (traceExact_failStep (traceExact_failStep traceExact_pure)))))))))

theorem extends_runVeth (env : NetEnv) (c : CreateVethCtx) :
    Extends (fun op => op ∈ VethOpsList env c) (runVeth env c) := by
  unfold runVeth
  apply extends_failStep (by simp [VethOpsList])
  apply extends_failStep (by simp [VethOpsList])
  apply extends_failStep (by simp [VethOpsList])
  apply extends_failStep (by simp [VethOpsList])
  apply extends_failStep (by simp [VethOpsList])
  apply extends_failStep (by simp [VethOpsList])
  apply extends_failStep (by simp [VethOpsList])
  apply extends_failStep (by simp [VethOpsList])
  apply extends_failStep (by simp [VethOpsList])
  apply extends_failStep (by simp [VethOpsList])
  exact extends_pure _

/-! ## Per-function lemmas: the phases of `setupNS` -/

theorem traceExact_setupNSFromPod (env : NetEnv) (addr : IPNet) (table : Int)
    (vpcCIDRs : List String) (snat : Bool) (tun : String) :
    TraceExact (setupNSFromPod env addr table vpcCIDRs snat tun)
      (fromPodOut addr table vpcCIDRs snat tun) := by
  intro s h
  by_cases ht : table > 0
  · cases snat with
    | true =>
      simp only [setupNSFromPod, if_pos ht, if_true] at h ⊢
      simp only [fromPodOut, if_pos ht, if_true]
      exact traceExact_addContainerRule env false addr fromContainerRulePriority table s h
    | false =>
      simp only [setupNSFromPod, if_pos ht, Bool.false_eq_true, if_false] at h ⊢
      simp only [fromPodOut, if_pos ht, Bool.false_eq_true, if_false]
      exact traceExact_addPodRules env addr table (effectiveCIDRs vpcCIDRs tun) s h
  · simp only [setupNSFromPod, if_neg ht] at h ⊢
    simp only [fromPodOut, if_neg ht]
    simp

theorem extends_setupNSFromPod (env : NetEnv) (addr : IPNet) (table : Int)
    (vpcCIDRs : List String) (snat : Bool) (tun : String) :
    Extends (fun op =>
      (0 < table ∧ snat = true ∧
        (op = NetOp.ruleDel (containerRuleOf false addr fromContainerRulePriority table) ∨
         op = NetOp.ruleAdd (containerRuleOf false addr fromContainerRulePriority table))) ∨
      (0 < table ∧ snat = false ∧
        ∃ c ∈ effectiveCIDRs vpcCIDRs tun, op = NetOp.ruleAdd (podRuleOf addr table c)))
      (setupNSFromPod env addr table vpcCIDRs snat tun) := by
  intro s
  by_cases ht : table > 0
  · cases snat with
    | true =>
      simp only [setupNSFromPod, if_pos ht, if_true]
      obtain ⟨t, ht2, hp⟩ := extends_addContainerRule env false addr fromContainerRulePriority table s
      exact ⟨t, ht2, fun op hop => Or.inl ⟨ht, trivial, hp op hop⟩⟩
    | false =>
      simp only [setupNSFromPod, if_pos ht, Bool.false_eq_true, if_false]
      obtain ⟨t, ht2, hp⟩ := extends_addPodRules env addr table (effectiveCIDRs vpcCIDRs tun) s
      refine ⟨t, ht2, fun op hop => ?_⟩
      obtain ⟨c2, hc2, rfl⟩ := hp op hop
      exact Or.inr ⟨ht, trivial, c2, hc2, rfl⟩
  · simp only [setupNSFromPod, if_neg ht]
    exact ⟨[], by simp, by simp⟩

theorem traceExact_setupNSHost (env : NetEnv) (hostVethName : String) (addr : IPNet)
    (table : Int) (vpcCIDRs : List String) (snat : Bool) (tun : String) :
    TraceExact (setupNSHost env hostVethName addr table vpcCIDRs snat tun)
      (NetOp.linkByName hostVethName ::
        NetOp.linkSetUp hostVethName ::
        NetOp.routeReplace (hostRoute env hostVethName addr) ::
        ([NetOp.ruleDel (containerRuleOf true addr toContainerRulePriority mainRouteTable),
          NetOp.ruleAdd (containerRuleOf true addr toContainerRulePriority mainRouteTable)] ++
          fromPodOut addr table vpcCIDRs snat tun)) := by
  unfold setupNSHost
  exact traceExact_failStep (traceExact_failStep (traceExact_failStep
    (traceExact_andThen
      (traceExact_addContainerRule env true addr toContainerRulePriority mainRouteTable)
      (traceExact_setupNSFromPod env addr table vpcCIDRs snat tun))))

theorem traceExact_setupNSMain (env : NetEnv) (hostVethName contVethName netnsPath : String)
    (addr : IPNet) (table : Int) (vpcCIDRs : List String) (snat : Bool) (tun : String) :
    TraceExact (setupNSMain env hostVethName contVethName netnsPath addr table vpcCIDRs snat tun)
      (mainOut env hostVethName contVethName netnsPath addr table vpcCIDRs snat tun) := by
  unfold setupNSMain mainOut
  exact traceExact_failStep (traceExact_andThen
    (traceExact_runVeth env { contVethName := contVethName, hostVethName := hostVethName, addr := addr })
    (traceExact_setupNSHost env hostVethName addr table vpcCIDRs snat tun))

theorem extends_setupNSMain (env : NetEnv) (hostVethName contVethName netnsPath : String)
    (addr : IPNet) (table : Int) (vpcCIDRs : List String) (snat : Bool) (tun : String) :
    Extends (MainOp env hostVethName contVethName netnsPath addr table vpcCIDRs snat tun)
      (setupNSMain env hostVethName contVethName netnsPath addr table vpcCIDRs snat tun) := by
  unfold setupNSMain
  apply extends_failStep (Or.inl rfl)
  apply extends_andThen
  · exact extends_mono (fun op hop => Or.inr (Or.inl hop))
      (extends_runVeth env { contVethName := contVethName, hostVethName := hostVethName, addr := addr })
  unfold setupNSHost
  apply extends_failStep (Or.inr (Or.inr (Or.inl (by simp [hostOpsList]))))
  apply extends_failStep (Or.inr (Or.inr (Or.inl (by simp [hostOpsList]))))
  apply extends_failStep (Or.inr (Or.inr (Or.inl (by simp [hostOpsList]))))
  apply extends_andThen
  · refine extends_mono ?_ (extends_addContainerRule env true addr toContainerRulePriority mainRouteTable)
    intro op hop
    rcases hop with h1 | h1
    · exact Or.inr (Or.inr (Or.inr (Or.inl h1)))
    · exact Or.inr (Or.inr (Or.inr (Or.inr (Or.inl h1))))
  · refine extends_mono ?_ (extends_setupNSFromPod env addr table vpcCIDRs snat tun)
    intro op hop
    rcases hop with h1 | h1
    · exact Or.inr (Or.inr (Or.inr (Or.inr (Or.inr (Or.inl h1)))))
    · exact Or.inr (Or.inr (Or.inr (Or.inr (Or.inr (Or.inr h1)))))

/-! ## Per-function lemmas: `tearDownNS` under a benign kernel -/

theorem tearDownNS_benign (env : NetEnv) (addr : IPNet) (table : Int) (s : St)
    (hb : BenignErr env) :
    (tearDownNS env addr table s).1 = Except.ok () ∧
    ((tearDownNS env addr table s).2).trace =
      s.trace ++ (NetOp.ruleDel (teardownToContainerRule addr) ::
        ((if table > 0 then [NetOp.deleteRuleListBySrc addr] else []) ++
          [NetOp.routeDel (teardownHostRouteOf addr)])) := by
  unfold tearDownNS tearDownFromPod
  by_cases ht : table > 0
  · simp only [if_pos ht]
    rcases hb (s.idx + 1) (NetOp.deleteRuleListBySrc addr) with h | h <;>
      simp [deleteRuleListBySrcStep, tearDownHostRoute, stepSt, h]
  · simp only [if_neg ht]
    simp [tearDownHostRoute, stepSt, ht]

/-! ## Per-function lemmas: the top of `setupNS` (stale-veth cleanup) -/

theorem setupNS_split (env : NetEnv) (hv cv np : String) (addr : IPNet) (table : Int)
    (cidrs : List String) (snat : Bool) (tun : String) (s : St) :
    (env.opErr s.idx (NetOp.linkByName hv) = none ∧
      ((env.opErr (s.idx + 1) (NetOp.linkDel hv) = none ∧
         setupNS env hv cv np addr table cidrs snat tun s =
           setupNSMain env hv cv np addr table cidrs snat tun
             (stepSt (NetOp.linkDel hv) (stepSt (NetOp.linkByName hv) s))) ∨
       (∃ e, env.opErr (s.idx + 1) (NetOp.linkDel hv) = some e ∧
         setupNS env hv cv np addr table cidrs snat tun s =
           (Except.error e, stepSt (NetOp.linkDel hv) (stepSt (NetOp.linkByName hv) s))))) ∨
    ((∃ e, env.opErr s.idx (NetOp.linkByName hv) = some e) ∧
       setupNS env hv cv np addr table cidrs snat tun s =
         setupNSMain env hv cv np addr table cidrs snat tun (stepSt (NetOp.linkByName hv) s)) := by
  unfold setupNS
  cases h1 : env.opErr s.idx (NetOp.linkByName hv) with
  | none =>
    dsimp only [stepSt]
    cases h2 : env.opErr (s.idx + 1) (NetOp.linkDel hv) with
    | none => exact Or.inl ⟨rfl, Or.inl ⟨rfl, rfl⟩⟩
    | some e => exact Or.inl ⟨rfl, Or.inr ⟨e, rfl, rfl⟩⟩
  | some e =>
    dsimp only [stepSt]
    exact Or.inr ⟨⟨e, rfl⟩, rfl⟩

/-! ## `fromPodAdds` computations -/

theorem fromPodAdds_append (a b : List NetOp) :
    fromPodAdds (a ++ b) = fromPodAdds a ++ fromPodAdds b := by
  simp [fromPodAdds]

theorem fromPodAdds_mainOut (env : NetEnv) (hv cv np : String) (addr : IPNet) (table : Int)
    (cidrs : List String) (snat : Bool) (tun : String) :
    fromPodAdds (mainOut env hv cv np addr table cidrs snat tun) =
      fromPodAdds (fromPodOut addr table cidrs snat tun) := by
  simp [mainOut, fromPodAdds, VethOpsList, containerRuleOf, newRule,
        toContainerRulePriority, fromContainerRulePriority]

theorem fromPodAdds_map_podRule (addr : IPNet) (tab : Int) :
    ∀ l : List String,
      fromPodAdds (l.map fun c => NetOp.ruleAdd (podRuleOf addr tab c)) =
        l.map (podRuleOf addr tab) := by
  intro l
  induction l with
  | nil => rfl
  | cons c rest ih =>
    simp only [List.map_cons, fromPodAdds, List.filterMap_cons] at ih ⊢
    rw [ih]
    simp [podRuleOf]

theorem fromPodAdds_fromPodOut (addr : IPNet) (table : Int) (cidrs : List String)
    (snat : Bool) (tun : String) :
    fromPodAdds (fromPodOut addr table cidrs snat tun) =
      (if table > 0 then
        (if snat then [containerRuleOf false addr fromContainerRulePriority table]
         else (effectiveCIDRs cidrs tun).map (podRuleOf addr table))
       else []) := by
  by_cases ht : table > 0
  · cases snat with
    | true =>
      simp only [fromPodOut, if_pos ht, if_true]
      simp [fromPodAdds, containerRuleOf, newRule]
    | false =>
      simp only [fromPodOut, if_pos ht, Bool.false_eq_true, if_false]
      exact fromPodAdds_map_podRule addr table (effectiveCIDRs cidrs tun)
  · simp [fromPodOut, if_neg ht, ht, fromPodAdds]

/-! ## Assembled facts about a whole `setupNS` run -/

theorem setupNS_fromPodAdds (env : NetEnv) (hv cv np : String) (addr : IPNet) (table : Int)
    (cidrs : List String) (snat : Bool) (tun : String) (s : St)
    (h : (setupNS env hv cv np addr table cidrs snat tun s).1 = Except.ok ()) :
    fromPodAdds ((setupNS env hv cv np addr table cidrs snat tun s).2).trace =
      fromPodAdds s.trace ++ fromPodAdds (fromPodOut addr table cidrs snat tun) := by
  have e1 : fromPodAdds [NetOp.linkByName hv] = [] := rfl
  have e2 : fromPodAdds [NetOp.linkDel hv] = [] := rfl
  rcases setupNS_split env hv cv np addr table cidrs snat tun s with
    ⟨_, ⟨_, heq⟩ | ⟨e, _, heq⟩⟩ | ⟨⟨e, _⟩, heq⟩
  · rw [heq] at h ⊢
    rw [traceExact_setupNSMain env hv cv np addr table cidrs snat tun _ h]
    simp only [stepSt, fromPodAdds_append, fromPodAdds_mainOut, e1, e2]
    simp
  · rw [heq] at h; simp at h
  · rw [heq] at h ⊢
    rw [traceExact_setupNSMain env hv cv np addr table cidrs snat tun _ h]
    simp only [stepSt, fromPodAdds_append, fromPodAdds_mainOut, e1, e2]
    simp

theorem setupNS_ops (env : NetEnv) (hv cv np : String) (addr : IPNet) (table : Int)
    (cidrs : List String) (snat : Bool) (tun : String) (s : St) :
    ∃ t, ((setupNS env hv cv np addr table cidrs snat tun s).2).trace = s.trace ++ t ∧
      ∀ op ∈ t, op = NetOp.linkByName hv ∨ op = NetOp.linkDel hv ∨
        MainOp env hv cv np addr table cidrs snat tun op := by
  rcases setupNS_split env hv cv np addr table cidrs snat tun s with
    ⟨_, ⟨_, heq⟩ | ⟨e, _, heq⟩⟩ | ⟨⟨e, _⟩, heq⟩
  · obtain ⟨t2, ht2, hp2⟩ := extends_setupNSMain env hv cv np addr table cidrs snat tun
      (stepSt (NetOp.linkDel hv) (stepSt (NetOp.linkByName hv) s))
    refine ⟨NetOp.linkByName hv :: NetOp.linkDel hv :: t2, ?_, ?_⟩
    · rw [heq, ht2]; simp [stepSt]
    · intro op hop
      rcases List.mem_cons.mp hop with rfl | hop
      · exact Or.inl rfl
      rcases List.mem_cons.mp hop with rfl | hop
      · exact Or.inr (Or.inl rfl)
      · exact Or.inr (Or.inr (hp2 op hop))
  · refine ⟨[NetOp.linkByName hv, NetOp.linkDel hv], ?_, ?_⟩
    · rw [heq]; simp [stepSt]
    · intro op hop
      rcases List.mem_cons.mp hop with rfl | hop
      · exact Or.inl rfl
      rcases List.mem_singleton.mp hop with rfl
      exact Or.inr (Or.inl rfl)
  · obtain ⟨t2, ht2, hp2⟩ := extends_setupNSMain env hv cv np addr table cidrs snat tun
      (stepSt (NetOp.linkByName hv) s)
    refine ⟨NetOp.linkByName hv :: t2, ?_, ?_⟩
    · rw [heq, ht2]; simp [stepSt]
    · intro op hop
      rcases List.mem_cons.mp hop with rfl | hop
      · exact Or.inl rfl
      · exact Or.inr (Or.inr (hp2 op hop))

/-! ## Machinery: the CNI-config write loop -/

theorem writeLoop_mem (env : StartEnv) (conf : IpamConf) :
    ∀ (k i : Nat) (path c : String),
      StartEv.wroteConfig path c ∈ (writeLoop env conf k i).2 →
      ∃ j, i ≤ j ∧ j < i + k ∧ (env.stats j).1 > (env.stats j).2 ∧ env.writeOk j = true ∧
        path = configFileName ∧ c = renderCNIConfig (IpamConf.vethPrefix conf) := by
  intro k
  induction k with
  | zero => intro i path c h; simp [writeLoop] at h
  | succ k ih =>
    intro i path c h
    unfold writeLoop at h
    by_cases hs : (env.stats i).1 > (env.stats i).2
    · rw [if_pos hs] at h
      by_cases hw : env.writeOk i = true
      · rw [if_pos hw] at h
        simp at h
        obtain ⟨hpath, hc⟩ := h
        exact ⟨i, le_refl i, by omega, hs, hw, hpath, hc⟩
      · rw [if_neg hw] at h
        obtain ⟨j, hj1, hj2, rest⟩ := ih (i + 1) path c h
        exact ⟨j, by omega, by omega, rest⟩
    · rw [if_neg hs] at h
      obtain ⟨j, hj1, hj2, rest⟩ := ih (i + 1) path c h
      exact ⟨j, by omega, by omega, rest⟩

theorem startModel_write (env : StartEnv) (path c : String)
    (h : StartEv.wroteConfig path c ∈ (startModel env).2) :
    env.k8sStartOk = true ∧ env.setupRestOk = true ∧ path = configFileName ∧
      (∃ j, j < 10 ∧ (env.stats j).1 > (env.stats j).2 ∧ env.writeOk j = true) ∧
      c = renderCNIConfig (IpamConf.vethPrefix (parseEnv env.vars ipamInitialConf)) := by
  unfold startModel at h
  by_cases hk : env.k8sStartOk = true
  · rw [if_pos hk] at h
    by_cases hs : env.setupRestOk = true
    · have hsome : setupModel env = some (parseEnv env.vars ipamInitialConf) := by
        simp [setupModel, hs]
      rw [hsome] at h
      dsimp only at h
      by_cases hg : env.grpcListenOk = true
      · rw [if_pos hg] at h
        simp only [List.cons_append, List.nil_append, List.mem_cons] at h
        rcases h with h | h | h
        · exact absurd h (by simp)
        · exact absurd h (by simp)
        · obtain ⟨j, _, hj2, hstat, hwr, hpath, hc⟩ :=
            writeLoop_mem env (parseEnv env.vars ipamInitialConf) 10 0 path c h

          exact ⟨hk, hs, hpath, ⟨j, by omega, hstat, hwr⟩, hc⟩
      · rw [if_neg hg] at h
        simp at h
    · have hnone : setupModel env = none := by
        simp [setupModel, hs]
      rw [hnone] at h
      simp at h
  · rw [if_neg hk] at h
    simp at h

/-- No call characterised by `MainOp` is a link deletion. -/
theorem mainOp_no_linkDel (env : NetEnv) (hv cv np : String) (addr : IPNet) (table : Int)
    (cidrs : List String) (snat : Bool) (tun : String) (op : NetOp)
    (h : MainOp env hv cv np addr table cidrs snat tun op) : ∀ n, op ≠ NetOp.linkDel n := by
  intro n hne
  subst hne
  rcases h with h | h | h | h | h | ⟨_, _, h | h⟩ | ⟨_, _, c, _, h⟩ <;>
    simp [VethOpsList, hostOpsList] at h

/-! ## Claim theorems -/

/-- Claim C3: inside the pod namespace, a successful
`createVethPairContext.run` performs exactly, in this order: create the
veth pair with MTU 9001 (container end named as requested, peer = host
end, flagged up), explicitly bring the host end and then the container end
up, add the on-link /32 route to the dummy next hop 169.254.1.1, add the
default route via that next hop, assign the pod address to the container
end, install the permanent (`NUD_PERMANENT`) neighbour entry resolving
169.254.1.1 to the MAC address of the host end, and only after all of that
move the host end into the host namespace. -/
theorem runVeth_order (env : NetEnv) (c : CreateVethCtx) (s : St)
    (h : (runVeth env c s).1 = Except.ok ()) :
    ((runVeth env c s).2).trace = s.trace ++
      [NetOp.linkAdd { name := c.contVethName, peerName := c.hostVethName,
                       mtu := 9001, up := true, txQLen := -1 },
       NetOp.linkByName c.hostVethName,
       NetOp.linkSetUp c.hostVethName,
       NetOp.linkByName c.contVethName,
       NetOp.linkSetUp c.contVethName,
       NetOp.routeReplace { linkIndex := env.linkIndex c.contVethName, scope := 253,
                            dst := some { ip := mkIPv4 169 254 1 1, maskBits := 32 } },
       NetOp.addDefaultRoute (mkIPv4 169 254 1 1) (env.linkIndex c.contVethName),
       NetOp.addrAdd c.contVethName c.addr,
       NetOp.neighAdd { linkIndex := env.linkIndex c.contVethName, state := 128,
                        ip := mkIPv4 169 254 1 1, hardwareAddr := env.linkMac c.hostVethName },
       NetOp.linkSetNsFd c.hostVethName] := by
  rw [traceExact_runVeth env c s h]
  rfl

/-- Closed instance of `runVeth_order` on the all-success kernel. -/
theorem runVeth_order_witness :
    ((runVeth allOkEnv sampleCtx st0).2).trace = st0.trace ++
      [NetOp.linkAdd { name := sampleCtx.contVethName, peerName := sampleCtx.hostVethName,
                       mtu := 9001, up := true, txQLen := -1 },
       NetOp.linkByName sampleCtx.hostVethName,
       NetOp.linkSetUp sampleCtx.hostVethName,
       NetOp.linkByName sampleCtx.contVethName,
       NetOp.linkSetUp sampleCtx.contVethName,
       NetOp.routeReplace { linkIndex := allOkEnv.linkIndex sampleCtx.contVethName, scope := 253,
                            dst := some { ip := mkIPv4 169 254 1 1, maskBits := 32 } },
       NetOp.addDefaultRoute (mkIPv4 169 254 1 1) (allOkEnv.linkIndex sampleCtx.contVethName),
       NetOp.addrAdd sampleCtx.contVethName sampleCtx.addr,
       NetOp.neighAdd { linkIndex := allOkEnv.linkIndex sampleCtx.contVethName, state := 128,
                        ip := mkIPv4 169 254 1 1, hardwareAddr := allOkEnv.linkMac sampleCtx.hostVethName },
       NetOp.linkSetNsFd sampleCtx.hostVethName] :=
  runVeth_order allOkEnv sampleCtx st0 rfl

/-- Claim C5 counterexample: in the non-SNAT branch the per-CIDR
priority-1536 rule is added WITHOUT a preceding deletion — on an
all-success run the trace contains the `RuleAdd` of the per-CIDR rule but
no `RuleDel` of it, so delete-then-add does not hold for the per-CIDR
rules. -/
theorem perCidr_not_delete_then_add :
    NetOp.ruleAdd (podRuleOf sampleAddr 2 "10.0.0.0/8") ∈
      ((setupNS allOkEnv "nicab" "eth0" "/p" sampleAddr 2 ["10.0.0.0/8"] false "" st0).2).trace ∧
    NetOp.ruleDel (podRuleOf sampleAddr 2 "10.0.0.0/8") ∉
      ((setupNS allOkEnv "nicab" "eth0" "/p" sampleAddr 2 ["10.0.0.0/8"] false "" st0).2).trace := by
  constructor <;> decide

/-- Claim C5 amended: delete-then-add holds exactly for the two rules
installed through `addContainerRule` — the priority-512 to-pod rule and
the external-SNAT priority-1536 rule: on success the calls are exactly
`RuleDel r` followed by `RuleAdd r` for the intended rule `r`.  The
per-CIDR priority-1536 rules are installed by a bare `RuleAdd` (with
"already exists" tolerated): the loop emits additions only, never a
deletion. -/
theorem delete_then_add :
    (∀ (env : NetEnv) (isTo : Bool) (addr : IPNet) (pri tab : Int) (s : St),
       (addContainerRule env isTo addr pri tab s).1 = Except.ok () →
       ((addContainerRule env isTo addr pri tab s).2).trace =
         s.trace ++ [NetOp.ruleDel (containerRuleOf isTo addr pri tab),
                     NetOp.ruleAdd (containerRuleOf isTo addr pri tab)]) ∧
    (∀ (env : NetEnv) (addr : IPNet) (tab : Int) (cidrs : List String) (s : St), ∃ t,
       ((addPodRules env addr tab cidrs s).2).trace = s.trace ++ t ∧
       ∀ op ∈ t, ∃ c ∈ cidrs, op = NetOp.ruleAdd (podRuleOf addr tab c)) := by
  constructor
  · intro env isTo addr pri tab s h
    exact traceExact_addContainerRule env isTo addr pri tab s h
  · intro env addr tab cidrs s
    obtain ⟨t, h1, h2⟩ := extends_addPodRules env addr tab cidrs s
    refine ⟨t, h1, fun op hop => ?_⟩
    obtain ⟨c, hc, rfl⟩ := h2 op hop
    exact ⟨c, hc, rfl⟩

/-- Closed instance of `delete_then_add` on the all-success kernel. -/
theorem delete_then_add_witness :
    ((addContainerRule allOkEnv true sampleAddr 512 254 st0).2).trace =
      st0.trace ++ [NetOp.ruleDel (containerRuleOf true sampleAddr 512 254),
                    NetOp.ruleAdd (containerRuleOf true sampleAddr 512 254)] ∧
    (∃ t, ((addPodRules allOkEnv sampleAddr 2 ["10.0.0.0/8"] st0).2).trace = st0.trace ++ t ∧
       ∀ op ∈ t, ∃ c ∈ ["10.0.0.0/8"], op = NetOp.ruleAdd (podRuleOf sampleAddr 2 c)) :=
  ⟨delete_then_add.1 allOkEnv true sampleAddr 512 254 st0 rfl,
   delete_then_add.2 allOkEnv sampleAddr 2 ["10.0.0.0/8"] st0⟩

/-- Claim C7: under a kernel whose only failures are missing objects
("no such rule" on any call), `tearDownNS` returns success, and its calls
are exactly: delete the priority-512 to-pod rule (destination = pod
address), then — only when `table > 0` — delete the from-pod rule list by
source, then delete the host-side /32 route.  Absent objects never fail
the teardown. -/
theorem tearDownNS_reverses (env : NetEnv) (addr : IPNet) (table : Int)
    (hb : BenignErr env) :
    (tearDownNS env addr table st0).1 = Except.ok () ∧
    ((tearDownNS env addr table st0).2).trace =
      NetOp.ruleDel (teardownToContainerRule addr) ::
        ((if table > 0 then [NetOp.deleteRuleListBySrc addr] else []) ++
          [NetOp.routeDel (teardownHostRouteOf addr)]) := by
  obtain ⟨h1, h2⟩ := tearDownNS_benign env addr table st0 hb
  refine ⟨h1, ?_⟩
  rw [h2]
  rfl

/-- Closed instance of `tearDownNS_reverses` on the everything-missing
kernel. -/
theorem tearDownNS_reverses_witness :
    (tearDownNS noSuchRuleEnv sampleAddr 2 st0).1 = Except.ok () ∧
    ((tearDownNS noSuchRuleEnv sampleAddr 2 st0).2).trace =
      NetOp.ruleDel (teardownToContainerRule sampleAddr) ::
        ((if (2 : Int) > 0 then [NetOp.deleteRuleListBySrc sampleAddr] else []) ++
          [NetOp.routeDel (teardownHostRouteOf sampleAddr)]) :=
  tearDownNS_reverses noSuchRuleEnv sampleAddr 2 (fun _ _ => Or.inr rfl)

/-- Claim C1: every policy rule `setupNS` touches — added or deleted, on
any run under any scripted kernel — is either the to-pod rule at priority
exactly 512 looked up in the main table (254), with destination = pod
address and no source, or (only when `table > 0`) a from-pod rule at
priority exactly 1536 looked up in the per-NIC `table`, with source = pod
address.  No other priority or table occurs. -/
theorem setupNS_rule_priorities (env : NetEnv) (hv cv np : String) (addr : IPNet)
    (table : Int) (cidrs : List String) (snat : Bool) (tun : String) (r : Rule)
    (hmem : NetOp.ruleAdd r ∈ ((setupNS env hv cv np addr table cidrs snat tun st0).2).trace ∨
            NetOp.ruleDel r ∈ ((setupNS env hv cv np addr table cidrs snat tun st0).2).trace) :
    (r.priority = 512 ∧ r.table = 254 ∧ r.dst = some addr ∧ r.src = none) ∨
    (0 < table ∧ r.priority = 1536 ∧ r.table = table ∧ r.src = some addr) := by
  obtain ⟨t, ht, hp⟩ := setupNS_ops env hv cv np addr table cidrs snat tun st0
  rw [ht] at hmem
  have hmem2 : NetOp.ruleAdd r ∈ t ∨ NetOp.ruleDel r ∈ t := by
    simpa [st0] using hmem
  have key : ∀ op, op ∈ t → (op = NetOp.ruleAdd r ∨ op = NetOp.ruleDel r) →
      (r.priority = 512 ∧ r.table = 254 ∧ r.dst = some addr ∧ r.src = none) ∨
      (0 < table ∧ r.priority = 1536 ∧ r.table = table ∧ r.src = some addr) := by
    intro op hin hshape
    rcases hp op hin with h | h | h
    · rcases hshape with rfl | rfl <;> simp at h
    · rcases hshape with rfl | rfl <;> simp at h
    · rcases h with h | h | h | h | h | ⟨ht0, _, h | h⟩ | ⟨ht0, _, c, _, h⟩
      · rcases hshape with rfl | rfl <;> simp at h
      · rcases hshape with rfl | rfl <;> simp [VethOpsList] at h
      · rcases hshape with rfl | rfl <;> simp [hostOpsList] at h
      · rcases hshape with rfl | rfl
        · simp at h
        · left
          have hr : r = containerRuleOf true addr toContainerRulePriority mainRouteTable := by
            injection h
          subst hr
          simp [containerRuleOf, newRule, toContainerRulePriority, mainRouteTable]
      · rcases hshape with rfl | rfl
        · left
          have hr : r = containerRuleOf true addr toContainerRulePriority mainRouteTable := by
            injection h
          subst hr
          simp [containerRuleOf, newRule, toContainerRulePriority, mainRouteTable]
        · simp at h
      · rcases hshape with rfl | rfl
        · simp at h
        · right
          have hr : r = containerRuleOf false addr fromContainerRulePriority table := by
            injection h
          subst hr
          refine ⟨ht0, ?_⟩
          simp [containerRuleOf, newRule, fromContainerRulePriority]
      · rcases hshape with rfl | rfl
        · right
          have hr : r = containerRuleOf false addr fromContainerRulePriority table := by
            injection h
          subst hr
          refine ⟨ht0, ?_⟩
          simp [containerRuleOf, newRule, fromContainerRulePriority]
        · simp at h
      · rcases hshape with rfl | rfl
        · right
          have hr : r = podRuleOf addr table c := by injection h
          subst hr
          refine ⟨ht0, ?_⟩
          simp [podRuleOf, newRule, fromContainerRulePriority]
        · simp at h
  rcases hmem2 with hm | hm
  · exact key _ hm (Or.inl rfl)
  · exact key _ hm (Or.inr rfl)

/-- Closed instance of `setupNS_rule_priorities`: the to-pod rule added on
an all-success external-SNAT run. -/
theorem setupNS_rule_priorities_witness :
    ((containerRuleOf true sampleAddr toContainerRulePriority mainRouteTable).priority = 512 ∧
     (containerRuleOf true sampleAddr toContainerRulePriority mainRouteTable).table = 254 ∧
     (containerRuleOf true sampleAddr toContainerRulePriority mainRouteTable).dst = some sampleAddr ∧
     (containerRuleOf true sampleAddr toContainerRulePriority mainRouteTable).src = none) ∨
    (0 < (2 : Int) ∧
     (containerRuleOf true sampleAddr toContainerRulePriority mainRouteTable).priority = 1536 ∧
     (containerRuleOf true sampleAddr toContainerRulePriority mainRouteTable).table = 2 ∧
     (containerRuleOf true sampleAddr toContainerRulePriority mainRouteTable).src = some sampleAddr) :=
  setupNS_rule_priorities allOkEnv "nicab" "eth0" "/p" sampleAddr 2 [] true ""
    (containerRuleOf true sampleAddr toContainerRulePriority mainRouteTable)
    (Or.inl (by decide))

/-- Claim C2: on every successful `setupNS` run the from-pod
(priority-1536) rule installations are exactly: a single
`from <pod> lookup <table>` rule (source = pod address, no destination)
when external SNAT is on; one `from <pod> to <cidr> lookup <table>` rule
per entry of the VPC CIDR list — with the tunnel net appended when
non-empty — when external SNAT is off; and none at all when `table ≤ 0`. -/
theorem setupNS_from_pod_rules (env : NetEnv) (hv cv np : String) (addr : IPNet)
    (table : Int) (cidrs : List String) (snat : Bool) (tun : String)
    (h : (setupNS env hv cv np addr table cidrs snat tun st0).1 = Except.ok ()) :
    fromPodAdds ((setupNS env hv cv np addr table cidrs snat tun st0).2).trace =
      (if table > 0 then
        (if snat then [containerRuleOf false addr fromContainerRulePriority table]
         else (effectiveCIDRs cidrs tun).map (podRuleOf addr table))
       else []) := by
  rw [setupNS_fromPodAdds env hv cv np addr table cidrs snat tun st0 h]
  rw [fromPodAdds_fromPodOut]
  have h0 : fromPodAdds st0.trace = [] := rfl
  rw [h0]
  simp

/-- Closed instance of `setupNS_from_pod_rules` on an all-success
external-SNAT run. -/
theorem setupNS_from_pod_rules_witness :
    fromPodAdds ((setupNS allOkEnv "nicab" "eth0" "/p" sampleAddr 2 [] true "" st0).2).trace =
      (if (2 : Int) > 0 then
        (if true then [containerRuleOf false sampleAddr fromContainerRulePriority 2]
         else (effectiveCIDRs [] "").map (podRuleOf sampleAddr 2))
       else []) :=
  setupNS_from_pod_rules allOkEnv "nicab" "eth0" "/p" sampleAddr 2 [] true "" rfl

/-- Claim C4 counterexample: a kernel "rule already exists" answer to a
rule addition is NOT always non-fatal in `setupNS` — with a kernel that
answers "already exists" to every rule addition (success elsewhere), the
addition of the priority-512 to-pod rule inside `addContainerRule`
propagates the error and `setupNS` fails. -/
theorem setupNS_eexist_fatal :
    (setupNS ruleExistsEnv "nicab" "eth0" "/p" sampleAddr 2 [] true "" st0).1 =
      Except.error NetlinkErr.ruleExists := rfl

/-- Claim C4 amended: "no such rule" is non-fatal on every deletion — in
`addContainerRule` (the priority-512 and external-SNAT installs) and in
the whole of `tearDownNS`.  "Rule already exists" is non-fatal only for
the per-CIDR from-pod additions of the `vpcCIDRs` loop; for the rules
installed through `addContainerRule` (delete-then-add) any addition
failure, "already exists" included, aborts with an error. -/
theorem rule_error_tolerance :
    (∀ (env : NetEnv) (isTo : Bool) (addr : IPNet) (pri tab : Int) (s : St),
       (env.opErr s.idx (NetOp.ruleDel (containerRuleOf isTo addr pri tab)) = none ∨
        env.opErr s.idx (NetOp.ruleDel (containerRuleOf isTo addr pri tab)) =
          some NetlinkErr.noSuchRule) →
       env.opErr (s.idx + 1) (NetOp.ruleAdd (containerRuleOf isTo addr pri tab)) = none →
       (addContainerRule env isTo addr pri tab s).1 = Except.ok ()) ∧
    (∀ (env : NetEnv) (isTo : Bool) (addr : IPNet) (pri tab : Int) (s : St) (e : NetlinkErr),
       (env.opErr s.idx (NetOp.ruleDel (containerRuleOf isTo addr pri tab)) = none ∨
        env.opErr s.idx (NetOp.ruleDel (containerRuleOf isTo addr pri tab)) =
          some NetlinkErr.noSuchRule) →
       env.opErr (s.idx + 1) (NetOp.ruleAdd (containerRuleOf isTo addr pri tab)) = some e →
       (addContainerRule env isTo addr pri tab s).1 = Except.error e) ∧
    (∀ (env : NetEnv) (addr : IPNet) (tab : Int) (cidrs : List String) (s : St),
       (∀ (i : Nat) (r : Rule), env.opErr i (NetOp.ruleAdd r) = none ∨
          env.opErr i (NetOp.ruleAdd r) = some NetlinkErr.ruleExists) →
       (addPodRules env addr tab cidrs s).1 = Except.ok ()) ∧
    (∀ (env : NetEnv) (addr : IPNet) (tab : Int) (s : St),
       BenignErr env → (tearDownNS env addr tab s).1 = Except.ok ()) := by
  refine ⟨?_, ?_, ?_, ?_⟩
  · intro env isTo addr pri tab s hdel hadd
    unfold addContainerRule
    rcases hdel with hdel | hdel <;> rw [hdel] <;> dsimp only <;>
      unfold addContainerRuleAdd <;>
      simp [ContainsNoSuchRule, stepSt, hadd]
  · intro env isTo addr pri tab s e hdel hadd
    unfold addContainerRule
    rcases hdel with hdel | hdel <;> rw [hdel] <;> dsimp only <;>
      unfold addContainerRuleAdd <;>
      simp [ContainsNoSuchRule, stepSt, hadd]
  · intro env addr tab cidrs s hadd
    induction cidrs generalizing s with
    | nil => simp [addPodRules]
    | cons cidr rest ih =>
      unfold addPodRules
      rcases hadd s.idx (podRuleOf addr tab cidr) with h | h <;> rw [h] <;>
        simp [IsRuleExistsError, ih]
  · intro env addr tab s hb
    exact (tearDownNS_benign env addr tab s hb).1

/-- Closed instance of `rule_error_tolerance` on concrete kernels. -/
theorem rule_error_tolerance_witness :
    (addContainerRule delMissingEnv true sampleAddr 512 254 st0).1 = Except.ok () ∧
    (addContainerRule ruleExistsEnv true sampleAddr 512 254 st0).1 =
      Except.error NetlinkErr.ruleExists ∧
    (addPodRules ruleExistsEnv sampleAddr 2 ["10.0.0.0/8"] st0).1 = Except.ok () ∧
    (tearDownNS noSuchRuleEnv sampleAddr 2 st0).1 = Except.ok () :=
  ⟨rule_error_tolerance.1 delMissingEnv true sampleAddr 512 254 st0 (Or.inr rfl) rfl,
   rule_error_tolerance.2.1 ruleExistsEnv true sampleAddr 512 254 st0 NetlinkErr.ruleExists
     (Or.inl rfl) rfl,
   rule_error_tolerance.2.2.1 ruleExistsEnv sampleAddr 2 ["10.0.0.0/8"] st0
     (fun _ _ => Or.inr rfl),
   rule_error_tolerance.2.2.2 noSuchRuleEnv sampleAddr 2 st0 (fun _ _ => Or.inr rfl)⟩

/-- Claim C6: when a host-side link with the requested host-veth name
exists when `setupNS` begins (the initial `LinkByName` succeeds), the
trace starts with that lookup immediately followed by `LinkDel` of that
link — before anything else, in particular before the veth pair is
created — and no later call deletes a link; when the lookup fails (no such
link), `setupNS` deletes no link at all. -/
theorem setupNS_stale_cleanup (env : NetEnv) (hv cv np : String) (addr : IPNet)
    (table : Int) (cidrs : List String) (snat : Bool) (tun : String) :
    (env.opErr 0 (NetOp.linkByName hv) = none →
      ∃ t, ((setupNS env hv cv np addr table cidrs snat tun st0).2).trace =
          NetOp.linkByName hv :: NetOp.linkDel hv :: t ∧
        ∀ n, NetOp.linkDel n ∉ t) ∧
    (∀ e, env.opErr 0 (NetOp.linkByName hv) = some e →
      ∀ n, NetOp.linkDel n ∉ ((setupNS env hv cv np addr table cidrs snat tun st0).2).trace) := by
  have hidx : st0.idx = 0 := rfl
  constructor
  · intro h0
    rcases setupNS_split env hv cv np addr table cidrs snat tun st0 with
      ⟨h1, ⟨h2, heq⟩ | ⟨e, h2, heq⟩⟩ | ⟨⟨e, h1⟩, heq⟩
    · obtain ⟨t2, ht2, hp2⟩ := extends_setupNSMain env hv cv np addr table cidrs snat tun
        (stepSt (NetOp.linkDel hv) (stepSt (NetOp.linkByName hv) st0))
      refine ⟨t2, ?_, ?_⟩
      · rw [heq, ht2]; rfl
      · intro n hn
        exact mainOp_no_linkDel env hv cv np addr table cidrs snat tun _ (hp2 _ hn) n rfl
    · refine ⟨[], ?_, by simp⟩
      rw [heq]; rfl
    · rw [hidx] at h1
      rw [h1] at h0
      cases h0
  · intro e he n
    rcases setupNS_split env hv cv np addr table cidrs snat tun st0 with
      ⟨h1, _⟩ | ⟨⟨e2, h1⟩, heq⟩
    · rw [hidx] at h1
      rw [h1] at he
      cases he
    · obtain ⟨t2, ht2, hp2⟩ := extends_setupNSMain env hv cv np addr table cidrs snat tun
        (stepSt (NetOp.linkByName hv) st0)
      rw [heq, ht2]
      intro hn
      have hn2 : NetOp.linkDel n ∈ (stepSt (NetOp.linkByName hv) st0).trace ++ t2 := hn
      rcases List.mem_append.mp hn2 with hn3 | hn3
      · simp [stepSt, st0] at hn3
      · exact mainOp_no_linkDel env hv cv np addr table cidrs snat tun _ (hp2 _ hn3) n rfl

/-- Closed instance of `setupNS_stale_cleanup`: the all-success kernel
reports the stale link (deleted first), the no-link kernel yields no
deletion. -/
theorem setupNS_stale_cleanup_witness :
    (∃ t, ((setupNS allOkEnv "nicab" "eth0" "/p" sampleAddr 2 [] true "" st0).2).trace =
        NetOp.linkByName "nicab" :: NetOp.linkDel "nicab" :: t ∧
      ∀ n, NetOp.linkDel n ∉ t) ∧
    NetOp.linkDel "nicab" ∉
      ((setupNS noLinkEnv "nicab" "eth0" "/p" sampleAddr 2 [] true "" st0).2).trace :=
  ⟨(setupNS_stale_cleanup allOkEnv "nicab" "eth0" "/p" sampleAddr 2 [] true "").1 rfl,
   (setupNS_stale_cleanup noLinkEnv "nicab" "eth0" "/p" sampleAddr 2 [] true "").2
     (NetlinkErr.other 2) rfl "nicab"⟩

/-- An infix of `l` is an infix of `l ++ t`. -/
theorem infix_extend {α : Type} {m l : List α} (h : m <:+: l) (t : List α) :
    m <:+: l ++ t := h.trans ⟨[], t, by simp⟩

set_option maxRecDepth 8192 in
/-- Claim C8: a config-file write in `Start` can only happen when the
Kubernetes controller started and `setup` (bootstrap) succeeded; the path
is `/host/etc/cni/net.d/10-ahostnic.conflist`; the datastore reported
`total > assigned` (at least one free IP) on the successful attempt,
within the 10-attempt budget; and the content is exactly the rendered
conflist — containing cniVersion 0.3.1, name hostnic-cni, the single
plugin entry of type hostnic, and the configured veth prefix. -/
theorem start_writes_config (env : StartEnv) (path c : String)
    (h : StartEv.wroteConfig path c ∈ (startModel env).2) :
    env.k8sStartOk = true ∧ env.setupRestOk = true ∧ path = configFileName ∧
    (∃ j, j < 10 ∧ (env.stats j).1 > (env.stats j).2 ∧ env.writeOk j = true) ∧
    c = renderCNIConfig (IpamConf.vethPrefix (parseEnv env.vars ipamInitialConf)) ∧
    ("\"cniVersion\": \"0.3.1\"".data <:+: c.data) ∧
    ("\"name\": \"hostnic-cni\"".data <:+: c.data) ∧
    ("\"type\": \"hostnic\"".data <:+: c.data) ∧
    (("\"vethPrefix\": \"" ++ IpamConf.vethPrefix (parseEnv env.vars ipamInitialConf) ++ "\"").data
       <:+: c.data) := by
  obtain ⟨hk, hs, hpath, hj, hc⟩ := startModel_write env path c h
  have hdata : c.data = cniTemplatePre.data ++
      ((IpamConf.vethPrefix (parseEnv env.vars ipamInitialConf)).data ++ cniTemplatePost.data) := by
    rw [hc]
    simp [renderCNIConfig, String.data_append, List.append_assoc]
  refine ⟨hk, hs, hpath, hj, hc, ?_, ?_, ?_, ?_⟩
  · rw [hdata]
    exact infix_extend (by decide) _
  · rw [hdata]
    exact infix_extend (by decide) _
  · rw [hdata]
    exact infix_extend (by decide) _
  · have h1 : cniTemplatePre.data =
        ("\x7b\n\t\"cniVersion\": \"0.3.1\",\n\t\"name\": \"hostnic-cni\",\n\t\"plugins\": [\n\t\t\x7b\n\t\t\"name\": \"hostnic\",\n\t\t\"type\": \"hostnic\",\n\t\t" : String).data ++
        ("\"vethPrefix\": \"" : String).data := by decide
    have h2 : cniTemplatePost.data = ("\"" : String).data ++ ("\n\t\t\x7d]\n\x7d" : String).data := by
      decide
    refine ⟨("\x7b\n\t\"cniVersion\": \"0.3.1\",\n\t\"name\": \"hostnic-cni\",\n\t\"plugins\": [\n\t\t\x7b\n\t\t\"name\": \"hostnic\",\n\t\t\"type\": \"hostnic\",\n\t\t" : String).data,
           ("\n\t\t\x7d]\n\x7d" : String).data, ?_⟩
    rw [hdata, h1, h2]
    simp [String.data_append, List.append_assoc]

/-- Closed instance of `start_writes_config` on the all-success start-up
oracle. -/
theorem start_writes_config_witness :
    sampleStartEnv.k8sStartOk = true ∧ sampleStartEnv.setupRestOk = true ∧
    configFileName = configFileName ∧
    (∃ j, j < 10 ∧ (sampleStartEnv.stats j).1 > (sampleStartEnv.stats j).2 ∧
       sampleStartEnv.writeOk j = true) ∧
    renderCNIConfig "nic" =
      renderCNIConfig (IpamConf.vethPrefix (parseEnv sampleStartEnv.vars ipamInitialConf)) ∧
    ("\"cniVersion\": \"0.3.1\"".data <:+: (renderCNIConfig "nic").data) ∧
    ("\"name\": \"hostnic-cni\"".data <:+: (renderCNIConfig "nic").data) ∧
    ("\"type\": \"hostnic\"".data <:+: (renderCNIConfig "nic").data) ∧
    (("\"vethPrefix\": \"" ++ IpamConf.vethPrefix (parseEnv sampleStartEnv.vars ipamInitialConf) ++ "\"").data
       <:+: (renderCNIConfig "nic").data) :=
  start_writes_config sampleStartEnv configFileName (renderCNIConfig "nic") (by decide)

/-- Claim C9 counterexample: `parseEnv` performs no length validation on
the veth name prefix — a supplied six-character prefix is taken verbatim,
contradicting "a supplied veth prefix is at most 4 characters". -/
theorem vethPrefix_no_length_check :
    IpamConf.vethPrefix (parseEnv
      { extraTagsVar := "", clusterNameVar := "", vethPrefixVar := "abcdef" }
      ipamInitialConf) = "abcdef" ∧
    4 < String.length "abcdef" := ⟨rfl, by decide⟩

/-- Claim C9 amended: when `HOSTNIC_CLUSTER_NAME` is unset or empty the
cluster name is "kubernetes", otherwise the supplied value; when
`HOSTNIC_VETH_PREFIX` is unset or empty the veth prefix is "nic",
otherwise the supplied value verbatim — with no length check; a non-empty
`HOSTNIC_EXTRA_TAGS` is split on commas (an empty one leaves the tags
untouched). -/
theorem parseEnv_behavior (e : EnvVars) (s : IpamConf) :
    (e.clusterNameVar = "" → IpamConf.clusterName (parseEnv e s) = "kubernetes") ∧
    (e.clusterNameVar ≠ "" → IpamConf.clusterName (parseEnv e s) = e.clusterNameVar) ∧
    (e.vethPrefixVar = "" → IpamConf.vethPrefix (parseEnv e s) = "nic") ∧
    (e.vethPrefixVar ≠ "" → IpamConf.vethPrefix (parseEnv e s) = e.vethPrefixVar) ∧
    (e.extraTagsVar ≠ "" → IpamConf.extraTags (parseEnv e s) = goSplit ',' e.extraTagsVar) ∧
    (e.extraTagsVar = "" → IpamConf.extraTags (parseEnv e s) = IpamConf.extraTags s) ∧
    goSplit ',' "a,b,c" = ["a", "b", "c"] := by
  refine ⟨?_, ?_, ?_, ?_, ?_, ?_, by decide⟩ <;> intro h <;>
    simp [parseEnv, defaultClusterName, defaultVethPrefix, h]

/-- Closed instance of `parseEnv_behavior`. -/
theorem parseEnv_behavior_witness :
    IpamConf.clusterName (parseEnv
      { extraTagsVar := "a,b", clusterNameVar := "", vethPrefixVar := "" }
      ipamInitialConf) = "kubernetes" ∧
    IpamConf.vethPrefix (parseEnv
      { extraTagsVar := "a,b", clusterNameVar := "", vethPrefixVar := "" }
      ipamInitialConf) = "nic" ∧
    IpamConf.extraTags (parseEnv
      { extraTagsVar := "a,b", clusterNameVar := "", vethPrefixVar := "" }
      ipamInitialConf) = goSplit ',' "a,b" :=
  ⟨(parseEnv_behavior { extraTagsVar := "a,b", clusterNameVar := "", vethPrefixVar := "" }
      ipamInitialConf).1 rfl,
   (parseEnv_behavior { extraTagsVar := "a,b", clusterNameVar := "", vethPrefixVar := "" }
      ipamInitialConf).2.2.1 rfl,
   (parseEnv_behavior { extraTagsVar := "a,b", clusterNameVar := "", vethPrefixVar := "" }
      ipamInitialConf).2.2.2.2.1 (by decide)⟩

/-- Claim C10: `prepareLocalPods` returns success (`nil`) unconditionally:
when reading the kernel rule list fails it returns at once with no
datastore assignment and no rule update; a pod whose device index resolves
to -1 produces no rule update; and the outcome is entirely independent of
whether the per-pod datastore assignment or rule update succeeds (those
failures are only logged). -/
theorem prepareLocalPods_tolerant (env : PrepEnv) (pods : List PodInfo) :
    (prepareLocalPods env pods).1 = true ∧
    (env.ruleListOk = false → (prepareLocalPods env pods).2 = []) ∧
    (∀ p : PodInfo, p.ip ≠ "" → env.nicIndexOf p.ip = -1 →
      prepPod env p = [PrepEv.assignAttempt p]) ∧
    (∀ f g, prepareLocalPods { env with assignOk := f, updateOk := g } pods =
       prepareLocalPods env pods) := by
  refine ⟨?_, ?_, ?_, ?_⟩
  · unfold prepareLocalPods
    split <;> rfl
  · intro h
    simp [prepareLocalPods, h]
  · intro p hip hidx
    simp [prepPod, hip, hidx]
  · intro f g
    rfl

/-- Closed instance of `prepareLocalPods_tolerant`. -/
theorem prepareLocalPods_tolerant_witness :
    (prepareLocalPods samplePrepEnv [samplePod]).1 = true ∧
    (prepareLocalPods samplePrepEnvNoRules [samplePod]).2 = [] ∧
    prepPod samplePrepEnvNoNic samplePod = [PrepEv.assignAttempt samplePod] :=
  ⟨(prepareLocalPods_tolerant samplePrepEnv [samplePod]).1,
   (prepareLocalPods_tolerant samplePrepEnvNoRules [samplePod]).2.1 rfl,
   (prepareLocalPods_tolerant samplePrepEnvNoNic [samplePod]).2.2.1 samplePod
     (by decide) rfl⟩

end Hostnic
